/-
  Verification development for the Wi-Fi connection manager of
  services/net/src/connection_manager.rs.

  The dispatcher loop, its poll / interrupt / resume handlers and the SSID
  candidate selector are shallowly embedded as pure Lean functions over an
  explicit state record.  External collaborators (the EC, the credential
  store, the subscriber bus and the net stack) appear as per-message oracle
  inputs, and the commands issued to them are logged as an effect list.
  Process aborts (expect/unwrap failures on the credential path and on the
  subscriber connect path) are modelled by an Option result: none means the
  dispatcher process dies.  Machine integers are modelled as Nat with an
  explicit % 2^w where wrap-around is possible (the u32 activity interval,
  the u16 interrupt mask and argument, the u8 EC revision fields).
-/
import Mathlib

namespace ConnMgr

/-- Wi-Fi connection states, from the WifiState enum of the source. -/
inductive WifiState
  | Unknown
  | Connecting
  | WaitDhcp
  | Retry
  | InvalidAp
  | InvalidAuth
  | Connected
  | Disconnected
  | Error
deriving DecidableEq, Repr

/-- SSID scan states, from the SsidScanState enum of the source. -/
inductive SsidScanState
  | Idle
  | Scanning
deriving DecidableEq, Repr

/-- Terminal EC connect results.  Modelled from the spec: the enum lives in
    the EC protocol crate (com_rs_ref), outside this repository excerpt; the
    spec lists exactly these eight results. -/
inductive ConnectResult
  | Success
  | NoMatchingAp
  | Timeout
  | Reject
  | AuthFail
  | Aborted
  | Error
  | Pending
deriving DecidableEq, Repr

/-- Modelled from the spec: raw_arg accompanies a Connect interrupt and
    encodes a ConnectResult via a 16-bit decoder defined by the EC protocol
    (com_rs_ref, outside this excerpt); a fixed enumeration of the sixteen
    bit patterns is used here, with the documented results on the low codes. -/
def ConnectResult.decode_u16 (raw : Nat) : ConnectResult :=
  match raw % 2 ^ 16 with
  | 0 => .Success
  | 1 => .NoMatchingAp
  | 2 => .Timeout
  | 3 => .Reject
  | 4 => .AuthFail
  | 5 => .Aborted
  | 6 => .Error
  | _ => .Pending

/-- Interrupt sources decoded from the 16-bit mask.  Modelled from the spec:
    the ComIntSources decoder lives outside this excerpt; the spec says the
    mask has one bit per source and only these five sources are meaningful
    to this core, other bits being ignored (represented by Invalid). -/
inductive ComIntSources
  | Connect
  | Disconnect
  | WlanSsidScanUpdate
  | WlanSsidScanFinished
  | WlanIpConfigUpdate
  | Invalid
deriving DecidableEq, Repr

/-- Modelled from the spec: one bit per source; the concrete bit positions
    are fixed here (bits 0..4 in the order the spec lists the sources), and
    every other 16-bit value decodes as Invalid and is ignored. -/
def decodeComIntSource (v : Nat) : ComIntSources :=
  if v = 1 then .Connect
  else if v = 2 then .Disconnect
  else if v = 4 then .WlanSsidScanUpdate
  else if v = 8 then .WlanSsidScanFinished
  else if v = 16 then .WlanIpConfigUpdate
  else .Invalid

/-- Link states reported by wlan_sync_state on resume.  Modelled from the
    spec: the LinkState enum is in the EC protocol crate; the resume logic
    distinguishes Connected, WFXError, and treats every other variant as
    approximately disconnected, collapsed here into Disconnected. -/
inductive LinkState
  | Connected
  | WFXError
  | Disconnected
deriving DecidableEq, Repr

/-- The ssid component of a status snapshot: the fields the manager actually
    inspects (the RSSI compare on poll) plus the name it forwards. -/
structure SsidStats where
  name : String
  rssi : Nat
deriving DecidableEq, Repr

/-- StatusSnapshot (com::WlanStatus).  Modelled from the spec:
    {ssid : Option SsidInfo, link : LinkState, ip : IpState}; the link and ip
    components are carried opaquely (the manager never branches on them), so
    they are represented as opaque Nat payloads. -/
structure WlanStatus where
  ssid : Option SsidStats
  link : Nat
  ip : Nat
deriving DecidableEq, Repr

/-- WlanStatus::from_ipc(WlanStatusIpc::default()): the default
    (disconnected) snapshot. -/
def WlanStatus.defaultStatus : WlanStatus :=
  { ssid := none, link := 0, ip := 0 }

def BOOT_POLL_INTERVAL_MS : Nat := 3758
def POLL_INTERVAL_MS : Nat := 10151
def INTERVALS_BEFORE_RETRY : Nat := 3

/-- Modelled from the spec: maximum passphrase length WF200_PASS_MAX_LEN
    (the constant lives in the com crate, outside this excerpt). -/
def WF200_PASS_MAX_LEN : Nat := 64

/-- HashSet::insert on the name-set model: sets of strings are lists and
    insertion is a no-op when the element is already present. -/
def hsInsert (s : String) (l : List String) : List String :=
  if l.contains s then l else s :: l

/-- The candidate pool: ap_list.intersection(ssid_list) of get_next_ssid,
    keeping the elements of the known-AP list that are visible. -/
def candidate_pool (ssid_list ap_list : List String) : List String :=
  ap_list.filter (fun c => ssid_list.contains c)

/-- The untried candidates: all_candidate_list.difference(ssid_attempted)
    of get_next_ssid. -/
def untried_pool (ssid_list ssid_attempted ap_list : List String) : List String :=
  (candidate_pool ssid_list ap_list).filter (fun c => !ssid_attempted.contains c)

/-- fn get_next_ssid(ssid_list, ssid_attempted, ap_list): pick an untried
    candidate from visible-and-known; if none is untried, clear the attempted
    set and pick any candidate; record the pick in the attempted set.  Sets
    are modelled as lists and the arbitrary HashSet iteration order is fixed
    as list order (the source is deterministic only up to that order); the
    returned list is the new ssid_attempted. -/
def get_next_ssid (ssid_list ssid_attempted ap_list : List String) :
    Option String × List String :=
  match untried_pool ssid_list ssid_attempted ap_list with
  | candidate :: _ => (some candidate, hsInsert candidate ssid_attempted)
  | [] =>
    match candidate_pool ssid_list ap_list with
    | candidate :: _ => (some candidate, [candidate])
    | [] => (none, [])

/-- Repeated invocation of the selector with fixed visible and known sets:
    the attempted set after n calls. -/
def selectIter (ssid_list ap_list a : List String) : Nat → List String
  | 0 => a
  | n + 1 => (get_next_ssid ssid_list (selectIter ssid_list ap_list a n) ap_list).2

/-- Repeated invocation of the selector with fixed visible and known sets:
    the SSID returned by call n (calls are numbered from 0, starting from
    attempted set a). -/
def selectOut (ssid_list ap_list a : List String) (n : Nat) : Option String :=
  (get_next_ssid ssid_list (selectIter ssid_list ap_list a n) ap_list).1

/-- The mutable state owned by the connection_manager dispatcher: the local
    variables of the dispatch loop plus the shared atomics it writes
    (run_enabled, the poll interval and the activity interval). -/
structure CmState where
  run : Bool
  mounted : Bool
  wifiState : WifiState
  lastWifiState : WifiState
  ssidList : List String
  ssidAttempted : List String
  waitCount : Nat
  scanState : SsidScanState
  statsCache : WlanStatus
  subscribers : List (Nat × List Nat)
  activityInterval : Nat
  currentInterval : Nat
deriving DecidableEq, Repr

instance : Inhabited CmState :=
  ⟨{ run := false, mounted := false, wifiState := .Unknown,
     lastWifiState := .Unknown, ssidList := [], ssidAttempted := [],
     waitCount := 0, scanState := .Idle,
     statsCache := WlanStatus.defaultStatus, subscribers := [],
     activityInterval := 0, currentInterval := 0 }⟩

/-- Commands the dispatcher issues to its collaborators, logged in order. -/
inductive Effect
  | setSsidScanning (enable : Bool)
  | wlanSetSsid (ssid : String)
  | wlanSetPass (pw : List Nat)
  | wlanJoin
  | wlanLeave
  | wifiReset
  | netReset
  | broadcast (cid : Nat) (status : WlanStatus)
  | selfPoll
  | pumpKick
  | returnScalar (v : Nat)
  | disconnectCid (cid : Nat)
  | showNotification
deriving DecidableEq, Repr

/-- Outcome of the credential-store accesses for one candidate SSID:
    pddb.get may fail (the source calls expect, a process abort), the
    subsequent read may return Err (silently skipped by the if-let), or it
    returns the raw passphrase bytes. -/
inductive PassOutcome
  | getFail
  | readErr
  | bytes (bs : List Nat)

/-- Oracle inputs consumed by one Poll dispatch: the mount state of the
    credential store, the result of pddb.list_keys (none models Err), the
    credential outcome per SSID, the wlan_get_rssi result (none models Err,
    replaced by 255 via unwrap_or), and the status wlan_status would report. -/
structure PollEnv where
  isMounted : Bool
  apList : Option (List String)
  passOutcome : String → PassOutcome
  rssi : Option Nat
  wlanStatus : WlanStatus

/-- Messages delivered to the dispatcher inbox (ConnectionManagerOpcode),
    each carrying the oracle inputs its handler consumes.  Quit only tears
    the loop down and is not modelled. -/
inductive Msg
  | poll (env : PollEnv)
  | comInt (ints rawArg : Nat) (fetch : Nat → Option (List (Nat × String)))
      (wlanStatus : WlanStatus)
  | suspendResume (link : LinkState)
  | subscribeWifiStats (conn : Option Nat) (subSid : List Nat)
  | unsubWifiStats (sid : List Nat)
  | runMsg (pumping : Bool)
  | stopMsg

/-- Byte-level UTF-8 validity, the success condition of the
    std::str::from_utf8 call on the passphrase bytes. -/
def isValidUtf8 : List Nat → Bool
  | [] => true
  | b :: rest =>
    if b < 0x80 then isValidUtf8 rest
    else if 0xC2 ≤ b ∧ b ≤ 0xDF then
      match rest with
      | c :: r2 => (0x80 ≤ c && c ≤ 0xBF) && isValidUtf8 r2
      | [] => false
    else if b = 0xE0 then
      match rest with
      | c :: d :: r2 =>
        (0xA0 ≤ c && c ≤ 0xBF) && (0x80 ≤ d && d ≤ 0xBF) && isValidUtf8 r2
      | _ => false
    else if (0xE1 ≤ b ∧ b ≤ 0xEC) ∨ b = 0xEE ∨ b = 0xEF then
      match rest with
      | c :: d :: r2 =>
        (0x80 ≤ c && c ≤ 0xBF) && (0x80 ≤ d && d ≤ 0xBF) && isValidUtf8 r2
      | _ => false
    else if b = 0xED then
      match rest with
      | c :: d :: r2 =>
        (0x80 ≤ c && c ≤ 0x9F) && (0x80 ≤ d && d ≤ 0xBF) && isValidUtf8 r2
      | _ => false
    else if b = 0xF0 then
      match rest with
      | c :: d :: e :: r2 =>
        (0x90 ≤ c && c ≤ 0xBF) && (0x80 ≤ d && d ≤ 0xBF) &&
          (0x80 ≤ e && e ≤ 0xBF) && isValidUtf8 r2
      | _ => false
    else if 0xF1 ≤ b ∧ b ≤ 0xF3 then
      match rest with
      | c :: d :: e :: r2 =>
        (0x80 ≤ c && c ≤ 0xBF) && (0x80 ≤ d && d ≤ 0xBF) &&
          (0x80 ≤ e && e ≤ 0xBF) && isValidUtf8 r2
      | _ => false
    else if b = 0xF4 then
      match rest with
      | c :: d :: e :: r2 =>
        (0x80 ≤ c && c ≤ 0x8F) && (0x80 ≤ d && d ≤ 0xBF) &&
          (0x80 ≤ e && e ≤ 0xBF) && isValidUtf8 r2
      | _ => false
    else false

/-- The per-subscriber fan-out loop: one send of the given snapshot to every
    current subscriber. -/
def broadcastTo (subs : List (Nat × List Nat)) (s : WlanStatus) : List Effect :=
  subs.map fun c => .broadcast c.1 s

/-- The scan re-arm idiom: if scan_state == Idle, set_ssid_scanning(true)
    and mark Scanning. -/
def ensureScanning (st : CmState) : CmState × List Effect :=
  if st.scanState = .Idle then
    ({ st with scanState := .Scanning }, [.setSsidScanning true])
  else (st, [])

/-- The wifi_state = match ConnectResult::decode_u16(raw_arg) arm of the
    ComInt handler, on an already decoded result. -/
def connectResultTransition (r : ConnectResult) (st : CmState) :
    CmState × List Effect :=
  match r with
  | .Success =>
    ({ st with scanState := .Idle, activityInterval := 0,
               wifiState := .WaitDhcp }, [.setSsidScanning false])
  | .NoMatchingAp => ({ st with wifiState := .InvalidAp }, [])
  | .Timeout => ({ st with wifiState := .Retry }, [])
  | .Reject => ({ st with wifiState := .InvalidAuth }, [])
  | .AuthFail => ({ st with wifiState := .InvalidAuth }, [])
  | .Aborted => ({ st with wifiState := .Retry }, [])
  | .Error => ({ st with wifiState := .Error }, [])
  | .Pending => ({ st with wifiState := .Error }, [])

/-- Folding one ssid_fetch_as_list result into ssid_list (the names are
    inserted, the RSSI component is dropped). -/
def foldSsids (slist : List (Nat × String)) (ssidList : List String) :
    List String :=
  slist.foldl (fun acc p => hsInsert p.2 acc) ssidList

/-- The 16-iteration interrupt decode loop of the ComInt handler.  The mask
    bit starts at 1 and is shifted left once per handled source; when a scan
    fetch returns an error the source code hits a loop continue, which skips
    the shift (the iteration is consumed but the mask stays).  fetch is the
    oracle for successive ssid_fetch_as_list calls, indexed by call count;
    wls is the status wlan_status reports on an IpConfigUpdate. -/
def comIntGo (ints raw : Nat) (fetch : Nat → Option (List (Nat × String)))
    (wls : WlanStatus) :
    Nat → Nat → Nat → CmState → List Effect → CmState × List Effect
  | 0, _mask, _calls, st, effs => (st, effs)
  | n + 1, mask, calls, st, effs =>
    match decodeComIntSource (mask &&& ints) with
    | .Connect =>
      let r := connectResultTransition (ConnectResult.decode_u16 raw) st
      comIntGo ints raw fetch wls n (mask <<< 1) calls r.1 (effs ++ r.2)
    | .Disconnect =>
      comIntGo ints raw fetch wls n (mask <<< 1) calls
        { st with ssidList := [], scanState := .Scanning,
                  wifiState := .Disconnected }
        (effs ++ [.setSsidScanning true])
    | .WlanSsidScanUpdate =>
      match fetch calls with
      | some slist =>
        comIntGo ints raw fetch wls n (mask <<< 1) (calls + 1)
          { st with ssidList := foldSsids slist st.ssidList } effs
      | none => comIntGo ints raw fetch wls n mask (calls + 1) st effs
    | .WlanSsidScanFinished =>
      match fetch calls with
      | some slist =>
        comIntGo ints raw fetch wls n (mask <<< 1) (calls + 1)
          { st with ssidList := foldSsids slist st.ssidList,
                    scanState := .Idle } effs
      | none => comIntGo ints raw fetch wls n mask (calls + 1) st effs
    | .WlanIpConfigUpdate =>
      comIntGo ints raw fetch wls n (mask <<< 1) calls
        { st with activityInterval := 0, wifiState := .Connected,
                  statsCache := wls }
        (effs ++ broadcastTo st.subscribers wls)
    | .Invalid => comIntGo ints raw fetch wls n (mask <<< 1) calls st effs

/-- The ComInt handler: truncate the scalar to u16 as the source does and
    run the 16-iteration decode loop. -/
def handleComInt (ints raw : Nat) (fetch : Nat → Option (List (Nat × String)))
    (wls : WlanStatus) (st : CmState) : CmState × List Effect :=
  comIntGo (ints % 2 ^ 16) raw fetch wls 16 1 0 st []

/-- The credential phase after the selector picked a candidate: open the
    passphrase (expect aborts on failure), read it (an Err read is skipped by
    the if-let), check UTF-8 (expect aborts on failure), then program SSID
    and passphrase and issue the join, entering Connecting. -/
def tryConnectCandidate (passOutcome : String → PassOutcome) (ssid : String)
    (st : CmState) : Option CmState × List Effect :=
  match passOutcome ssid with
  | .getFail => (none, [])
  | .readErr => (some st, [])
  | .bytes bs =>
    let bs := bs.take WF200_PASS_MAX_LEN
    if isValidUtf8 bs then
      (some { st with wifiState := .Connecting },
       [.wlanSetSsid ssid, .wlanSetPass bs, .wlanJoin])
    else (none, [])

/-- The poll branch for Unknown / Disconnected / InvalidAp / InvalidAuth:
    stop an active scan, run the selector (which always rewrites
    ssid_attempted), and try the candidate if there is one. -/
def pollSelect (env : PollEnv) (apList : List String) (st : CmState) :
    Option CmState × List Effect :=
  let a := if st.scanState = .Scanning then
      ({ st with scanState := .Idle }, [Effect.setSsidScanning false])
    else (st, [])
  let st1 := a.1
  match get_next_ssid st1.ssidList st1.ssidAttempted apList with
  | (some ssid, att) =>
    let r := tryConnectCandidate env.passOutcome ssid
      { st1 with ssidAttempted := att }
    (r.1, a.2 ++ r.2)
  | (none, att) => (some { st1 with ssidAttempted := att }, a.2)

/-- The per-state poll dispatch (the match on wifi_state inside the mounted
    branch of the Poll handler). -/
def pollDispatch (env : PollEnv) (apList : List String) (st : CmState) :
    Option CmState × List Effect :=
  match st.wifiState with
  | .Unknown | .Disconnected | .InvalidAp | .InvalidAuth =>
    pollSelect env apList st
  | .WaitDhcp | .Connecting =>
    let wc := st.waitCount + 1
    if wc > INTERVALS_BEFORE_RETRY then
      (some { st with waitCount := 0, wifiState := .Retry }, [])
    else (some { st with waitCount := wc }, [])
  | .Retry =>
    let a := ensureScanning { st with wifiState := .Disconnected }
    (some a.1, [.wlanLeave, .netReset] ++ a.2 ++ [.selfPoll])
  | .Error =>
    let a := ensureScanning { st with wifiState := .Disconnected }
    (some a.1, [.wifiReset, .netReset] ++ a.2 ++ [.selfPoll])
  | .Connected =>
    (some { st with statsCache := env.wlanStatus },
     broadcastTo st.subscribers env.wlanStatus)

/-- The mounted branch of the Poll handler: mark mounted, run the edge check
    broadcasting the default snapshot on an observed Connected to
    non-Connected transition, then dispatch per state if list_keys succeeds. -/
def pollMountedPart (env : PollEnv) (st : CmState) :
    Option CmState × List Effect :=
  let st := { st with mounted := true }
  let a :=
    if st.lastWifiState = .Connected ∧ st.wifiState ≠ .Connected then
      ({ st with statsCache := WlanStatus.defaultStatus },
       broadcastTo st.subscribers WlanStatus.defaultStatus)
    else (st, [])
  let st1 := a.1
  match env.apList with
  | some apVec =>
    let apl := apVec.foldl (fun acc s => hsInsert s acc) []
    let r := pollDispatch env apl st1
    (r.1, a.2 ++ r.2)
  | none => (some st1, a.2)

/-- The body of the activity-interval timeout: the mounted branch guarded by
    pddb.is_mounted() && rev_ok, followed in all surviving paths by the
    last_wifi_state update (which sits inside the timeout but outside the
    mounted guard in the source). -/
def pollActivityPart (revOk : Bool) (env : PollEnv) (st : CmState) :
    Option CmState × List Effect :=
  let a :=
    if env.isMounted && revOk then pollMountedPart env st
    else (some st, [])
  match a.1 with
  | some st1 => (some { st1 with lastWifiState := st1.wifiState }, a.2)
  | none => (none, a.2)

/-- The tail of every surviving Poll dispatch: while Connected, read the RSSI
    (Err becomes 255) and rebroadcast only if it changed from the cache; then
    set the next poll interval from the mounted flag. -/
def pollTail (env : PollEnv) (st : CmState) : CmState × List Effect :=
  let a :=
    if st.wifiState = .Connected then
      match st.statsCache.ssid with
      | some si =>
        let rssi_u8 := env.rssi.getD 255
        if si.rssi ≠ rssi_u8 then
          let st1 := { st with
            statsCache := { st.statsCache with
              ssid := some { si with rssi := rssi_u8 } } }
          (st1, broadcastTo st1.subscribers st1.statsCache)
        else (st, [])
      | none => (st, [])
    else (st, [])
  let st2 := a.1
  ({ st2 with currentInterval :=
      if !st2.mounted then BOOT_POLL_INTERVAL_MS else POLL_INTERVAL_MS },
   a.2)

/-- The Poll handler: activity_interval.fetch_add(current_interval) compares
    the old value against one poll period (with u32 wrap-around on the add),
    gating the reconciliation; the RSSI check and interval update always run
    unless the dispatch died. -/
def handlePoll (revOk : Bool) (env : PollEnv) (st : CmState) :
    Option CmState × List Effect :=
  let old := st.activityInterval
  let st1 := { st with activityInterval := (old + st.currentInterval) % 2 ^ 32 }
  let a :=
    if old > st.currentInterval then pollActivityPart revOk env st1
    else (some st1, [])
  match a.1 with
  | none => (none, a.2)
  | some st2 =>
    let b := pollTail env st2
    (some b.1, a.2 ++ b.2)

/-- The resume half of the SuspendResume handler: reconcile our state with
    the link state the EC reports after resume. -/
def handleResume (link : LinkState) (st : CmState) : CmState × List Effect :=
  match link with
  | .Connected =>
    match st.wifiState with
    | .Connected => (st, [])
    | .Error => (st, [])
    | _ =>
      let a := ensureScanning { st with wifiState := .Disconnected }
      (a.1, [.wlanLeave, .netReset] ++ a.2 ++ [.selfPoll])
  | .WFXError => ({ st with wifiState := .Error }, [])
  | .Disconnected =>
    match st.wifiState with
    | .Connected =>
      let st1 := { st with statsCache := WlanStatus.defaultStatus,
                           wifiState := .Disconnected }
      let a := ensureScanning st1
      (a.1, [.netReset] ++ broadcastTo st.subscribers WlanStatus.defaultStatus
              ++ a.2)
    | .Error => (st, [])
    | _ => ({ st with wifiState := .Disconnected }, [])

/-- HashMap::insert on the subscriber table: replace the descriptor when the
    connection id is already a key, append otherwise. -/
def insertSub (cid : Nat) (sid : List Nat) (subs : List (Nat × List Nat)) :
    List (Nat × List Nat) :=
  if subs.any (fun p => p.1 = cid) then
    subs.map (fun p => if p.1 = cid then (cid, sid) else p)
  else subs ++ [(cid, sid)]

/-- One dispatch of the inbox loop.  The first component is none when the
    handler aborts the process (an expect/unwrap failure); the second lists
    the effects emitted before the abort. -/
def stepCm (revOk : Bool) (st : CmState) (m : Msg) :
    Option CmState × List Effect :=
  match m with
  | .poll env => handlePoll revOk env st
  | .comInt ints raw fetch wls =>
    let r := handleComInt ints raw fetch wls st
    (some r.1, r.2)
  | .suspendResume link =>
    let r := handleResume link st
    (some r.1, r.2)
  | .subscribeWifiStats conn sid =>
    match conn with
    | none => (none, [])
    | some cid =>
      (some { st with subscribers := insertSub cid sid st.subscribers }, [])
  | .unsubWifiStats sid =>
    let valid := st.subscribers.foldl
      (fun acc p => if p.2 = sid then some p.1 else acc) none
    match valid with
    | some cid =>
      (some { st with
          subscribers := st.subscribers.filter (fun p => !(p.1 = cid : Bool)) },
       [.returnScalar 1, .disconnectCid cid])
    | none => (some st, [.returnScalar 1])
  | .runMsg pumping =>
    let old := st.run
    let st1 := { st with run := true }
    if !old && !pumping then (some st1, [.pumpKick]) else (some st1, [])
  | .stopMsg => (some { st with run := false }, [])

/-- Packing of the EC firmware version (maj, min, rev, commits), each a u8,
    into the u32 compared against MIN_EC_REV. -/
def ecRevPack (maj minr rev commits : Nat) : Nat :=
  ((maj % 256) <<< 24) ||| ((minr % 256) <<< 16) |||
    ((rev % 256) <<< 8) ||| (commits % 256)

/-- Construction of the connection manager: check the EC revision against the
    minimum (showing the too-old notification when it fails and seeding
    run_enabled with the check), kick off the initial SSID scan, and start
    the pump.  minEcRev is the MIN_EC_REV constant (defined in the net crate
    outside this excerpt) and a0 the initial value of the shared activity
    interval.  Returns the initial state, the construction effects, and
    rev_ok. -/
def initCm (maj minr rev commits minEcRev a0 : Nat) :
    CmState × List Effect × Bool :=
  let revOk : Bool := decide (ecRevPack maj minr rev commits ≥ minEcRev)
  let noteEffs : List Effect := if revOk then [] else [.showNotification]
  ({ run := revOk, mounted := false,
     wifiState := .Unknown, lastWifiState := .Unknown,
     ssidList := [], ssidAttempted := [], waitCount := 0,
     scanState := .Scanning, statsCache := WlanStatus.defaultStatus,
     subscribers := [], activityInterval := a0 % 2 ^ 32,
     currentInterval := BOOT_POLL_INTERVAL_MS },
   noteEffs ++ [.setSsidScanning true, .pumpKick],
   revOk)

/-- Serial processing of a message list: accumulate the effects and stop at
    the first dispatch that aborts the process. -/
def runTrace (revOk : Bool) : CmState → List Msg → Option CmState × List Effect
  | st, [] => (some st, [])
  | st, m :: ms =>
    match stepCm revOk st m with
    | (none, effs) => (none, effs)
    | (some st1, effs) =>
      let r := runTrace revOk st1 ms
      (r.1, effs ++ r.2)

/-- The state sequence along a trace: the initial state followed by the state
    after each surviving dispatch. -/
def traceStates (revOk : Bool) : CmState → List Msg → List CmState
  | st, [] => [st]
  | st, m :: ms =>
    st :: (match (stepCm revOk st m).1 with
           | some st1 => traceStates revOk st1 ms
           | none => [])

/-- The per-dispatch effect lists along a trace (stopping after an abort). -/
def traceEffects (revOk : Bool) : CmState → List Msg → List (List Effect)
  | _, [] => []
  | st, m :: ms =>
    match stepCm revOk st m with
    | (none, effs) => [effs]
    | (some st1, effs) => effs :: traceEffects revOk st1 ms

/-- Whether an effect is a send of the default (disconnected) snapshot. -/
def isDefaultBroadcast : Effect → Bool
  | .broadcast _ s => decide (s = WlanStatus.defaultStatus)
  | _ => false

/-- Number of default-snapshot sends in an effect list. -/
def defaultBroadcasts (effs : List Effect) : Nat :=
  (effs.filter isDefaultBroadcast).length

/-- Whether an effect is any subscriber send. -/
def isBroadcast : Effect → Bool
  | .broadcast _ _ => true
  | _ => false

/-- Number of subscriber sends in an effect list. -/
def broadcastCount (effs : List Effect) : Nat :=
  (effs.filter isBroadcast).length

/-- Number of observed transitions from Connected to a non-Connected state
    along a state sequence. -/
def connectedDrops : List CmState → Nat
  | s1 :: s2 :: rest =>
    (if s1.wifiState = .Connected ∧ s2.wifiState ≠ .Connected then 1 else 0) +
      connectedDrops (s2 :: rest)
  | _ => 0

/-- Whether an effect list contains a scan request (set_ssid_scanning(true)). -/
def scanRequested (effs : List Effect) : Bool :=
  effs.any fun e => decide (e = Effect.setSsidScanning true)

/-- Instrumentation for the scan invariant: fold a trace keeping a flag that
    records whether a scan has been requested since the wifi state last
    changed (each dispatch is atomic: a request and a state change inside the
    same dispatch count as a request since entry).  none when a dispatch
    aborts. -/
def scanFlagGo (revOk : Bool) : Bool → CmState → List Msg → Option Bool
  | flag, _, [] => some flag
  | flag, st, m :: ms =>
    match stepCm revOk st m with
    | (none, _) => none
    | (some st1, effs) =>
      let flag1 :=
        if st1.wifiState = st.wifiState then flag || scanRequested effs
        else scanRequested effs
      scanFlagGo revOk flag1 st1 ms

/-- The gate of the poll edge check as a condition on the pre-dispatch state:
    the activity interval timed out, the store is mounted, the firmware is
    new enough, the previously observed state was Connected and the current
    one is not. -/
def pollEdgeCond (revOk : Bool) (st : CmState) : Msg → Bool
  | .poll env =>
    decide (st.currentInterval < st.activityInterval) && env.isMounted &&
      revOk && decide (st.lastWifiState = .Connected) &&
      !(decide (st.wifiState = .Connected))
  | _ => false

/-- The gate of the resume disconnect branch: the EC reports a disconnected
    link while we believe we are Connected. -/
def resumeDropCond (st : CmState) : Msg → Bool
  | .suspendResume .Disconnected => decide (st.wifiState = .Connected)
  | _ => false

/-- Side condition on the status oracles of a message: when the EC is asked
    for the current status (wlan_status), it reports an association, i.e. a
    non-default snapshot. -/
def msgStatusNonDefault : Msg → Prop
  | .poll env => env.wlanStatus.ssid ≠ none
  | .comInt _ _ _ wls => wls.ssid ≠ none
  | _ => True

/-- A status snapshot reporting an association with AP "home" at RSSI 20,
    used by the concrete scenarios. -/
def homeStatus : WlanStatus := { ssid := some ⟨"home", 20⟩, link := 0, ip := 0 }

/-- Poll oracle: store mounted, "home" known, readable ASCII passphrase,
    RSSI 20, EC status homeStatus. -/
def envJoin : PollEnv :=
  { isMounted := true, apList := some ["home"],
    passOutcome := fun _ => .bytes [112, 119], rssi := some 20,
    wlanStatus := homeStatus }

/-- Poll oracle: as envJoin but the stored passphrase bytes are not valid
    UTF-8 (a lone 0xFF byte). -/
def envBadPw : PollEnv :=
  { isMounted := true, apList := some ["home"],
    passOutcome := fun _ => .bytes [255], rssi := some 20,
    wlanStatus := homeStatus }

/-- Poll oracle: store mounted but pddb.list_keys fails, skipping the
    per-state dispatch. -/
def envSkip : PollEnv :=
  { isMounted := true, apList := none,
    passOutcome := fun _ => .bytes [112, 119], rssi := some 20,
    wlanStatus := homeStatus }

/-- Initial state of a manager whose EC passed the revision check. -/
def initGood : CmState := (initCm 0 9 0 0 0 0).1

/-- Scenario for the status edge broadcast: subscribe, reach Connected via an
    IpConfigUpdate interrupt, poll until the activity timeout records the
    Connected state, then resume with the EC reporting a disconnected link,
    then poll once more past the timeout. -/
def c3Msgs : List Msg :=
  [ .subscribeWifiStats (some 7) [1, 2, 3, 4],
    .comInt 16 0 (fun _ => none) homeStatus,
    .poll envJoin, .poll envJoin, .poll envJoin,
    .suspendResume .Disconnected,
    .poll envSkip ]

/-- Scenario for the credential error path: a scan update makes "home"
    visible, then three polls reach candidate selection with a non-UTF-8
    passphrase. -/
def c5Msgs : List Msg :=
  [ .comInt 4 0 (fun _ => some [(50, "home")]) homeStatus,
    .poll envBadPw, .poll envBadPw, .poll envBadPw ]

/-- Scenario for the RSSI suppression check: subscribe, connect, then two
    quiet polls with the RSSI unchanged at 20. -/
def c7Msgs : List Msg :=
  [ .subscribeWifiStats (some 7) [1, 2, 3, 4],
    .comInt 16 0 (fun _ => none) homeStatus,
    .poll envJoin, .poll envJoin ]

/-- The state just before the decisive third poll of the RSSI scenario. -/
def c7Pre : CmState := ((runTrace true initGood c7Msgs).1).getD default

/-- Scenario for the scan invariant: a scan update makes "home" visible,
    three polls reach selection and issue the join, then the EC reports
    AuthFail, entering InvalidAuth without any scan request. -/
def c9Msgs : List Msg :=
  [ .comInt 4 0 (fun _ => some [(50, "home")]) homeStatus,
    .poll envJoin, .poll envJoin, .poll envJoin,
    .comInt 1 4 (fun _ => none) homeStatus ]

/-- A state in the middle of a DHCP wait with one subscriber, a visible SSID
    and a scan in flight, used by the stuck-mask scenario. -/
def c10St : CmState :=
  { initGood with scanState := .Scanning, wifiState := .WaitDhcp,
                  ssidList := ["x"], subscribers := [(7, [1, 2, 3, 4])],
                  activityInterval := 55 }

/-- A subscriber table holding 32 entries, the ceiling of the kernel
    connection table that backs it. -/
def c6St : CmState :=
  { initGood with
      subscribers := (List.range 32).map (fun i => (100 + i, [i, 0, 0, 0])) }

/-- Poll oracle: two known APs visible, every credential read failing with an
    I/O error. -/
def envReadErr : PollEnv :=
  { isMounted := true, apList := some ["home", "work"],
    passOutcome := fun _ => .readErr, rssi := some 20,
    wlanStatus := homeStatus }

/-- A disconnected state with two visible SSIDs and a timed-out activity
    interval, ready for candidate selection on the next poll. -/
def c5bSt : CmState :=
  { initGood with wifiState := .Disconnected, ssidList := ["home", "work"],
                  scanState := .Idle, activityInterval := 9000 }

/-- The final state of the scan-invariant scenario. -/
def c9Fin : CmState := ((runTrace true initGood c9Msgs).1).getD default

/- ### Selector lemmas -/

theorem contains_true_iff (l : List String) (s : String) :
    l.contains s = true ↔ s ∈ l := by
  simp [List.contains, List.elem_iff]

theorem mem_candidate_pool {v k : List String} {c : String} :
    c ∈ candidate_pool v k ↔ c ∈ k ∧ c ∈ v := by
  simp [candidate_pool, List.mem_filter, contains_true_iff]

theorem mem_untried_pool {v a k : List String} {c : String} :
    c ∈ untried_pool v a k ↔ (c ∈ k ∧ c ∈ v) ∧ c ∉ a := by
  simp [untried_pool, List.mem_filter, mem_candidate_pool, contains_true_iff]

theorem hsInsert_of_not_mem {s : String} {l : List String} (h : s ∉ l) :
    hsInsert s l = s :: l := by
  simp [hsInsert, h]

theorem mem_hsInsert {s t : String} {l : List String} :
    t ∈ hsInsert s l ↔ t = s ∨ t ∈ l := by
  by_cases h : s ∈ l
  · have hc : l.contains s = true := (contains_true_iff l s).mpr h
    simp only [hsInsert, hc, if_true]
    constructor
    · exact Or.inr
    · rintro (rfl | hm)
      · exact h
      · exact hm
  · rw [hsInsert_of_not_mem h]
    exact List.mem_cons

theorem untried_pool_cons {v a k : List String} {u : String} (hu : u ∉ a) :
    untried_pool v (hsInsert u a) k =
      (untried_pool v a k).filter (fun c => !(c == u)) := by
  rw [hsInsert_of_not_mem hu]
  unfold untried_pool
  rw [List.filter_filter]
  apply List.filter_congr
  intro c _
  show (!(u :: a).contains c) = ((!(c == u)) && !(a.contains c))
  rw [List.contains_cons, Bool.not_or]

theorem get_next_ssid_fresh {v a k : List String} {u : String}
    {rest : List String} (h : untried_pool v a k = u :: rest) :
    get_next_ssid v a k = (some u, hsInsert u a) := by
  simp [get_next_ssid, h]

theorem get_next_ssid_reseed {v a k : List String} {p : String}
    {rest : List String} (h1 : untried_pool v a k = [])
    (h2 : candidate_pool v k = p :: rest) :
    get_next_ssid v a k = (some p, [p]) := by
  simp [get_next_ssid, h1, h2]

theorem get_next_ssid_none {v a k : List String}
    (h1 : untried_pool v a k = []) (h2 : candidate_pool v k = []) :
    get_next_ssid v a k = (none, []) := by
  simp [get_next_ssid, h1, h2]

theorem selectIter_shift (v k a : List String) (n : Nat) :
    selectIter v k a (n + 1) = selectIter v k ((get_next_ssid v a k).2) n := by
  induction n with
  | zero => rfl
  | succ n ih =>
    show (get_next_ssid v (selectIter v k a (n + 1)) k).2 = _
    rw [ih]
    rfl

theorem selectIter_add (v k a : List String) (m n : Nat) :
    selectIter v k a (m + n) = selectIter v k (selectIter v k a m) n := by
  induction n with
  | zero => rfl
  | succ n ih =>
    show (get_next_ssid v (selectIter v k a (m + n)) k).2 = _
    rw [ih]
    rfl

theorem cover_fresh (v k : List String) :
    ∀ (N : Nat) (a : List String) (x : String),
      (untried_pool v a k).length ≤ N → x ∈ untried_pool v a k →
      ∃ n, selectOut v k a n = some x := by
  intro N
  induction N with
  | zero =>
    intro a x hlen hx
    have h0 : untried_pool v a k = [] :=
      List.length_eq_zero.mp (Nat.le_zero.mp hlen)
    rw [h0] at hx
    cases hx
  | succ N ih =>
    intro a x hlen hx
    rcases hu : untried_pool v a k with _ | ⟨u, rest⟩
    · rw [hu] at hx
      cases hx
    · by_cases hxu : x = u
      · refine ⟨0, ?_⟩
        subst hxu
        show (get_next_ssid v (selectIter v k a 0) k).1 = some x
        show (get_next_ssid v a k).1 = some x
        rw [get_next_ssid_fresh hu]
      · have humem : u ∈ untried_pool v a k := by
          rw [hu]; exact List.mem_cons_self _ _
        have hua : u ∉ a := (mem_untried_pool.mp humem).2
        have hstep : (get_next_ssid v a k).2 = hsInsert u a := by
          rw [get_next_ssid_fresh hu]
        have hnext : untried_pool v (hsInsert u a) k =
            (untried_pool v a k).filter (fun c => !(c == u)) :=
          untried_pool_cons hua
        have hxnext : x ∈ untried_pool v (hsInsert u a) k := by
          rw [hnext]
          exact List.mem_filter.mpr ⟨hx, by simp [hxu]⟩
        have hdec : (untried_pool v (hsInsert u a) k).length <
            (untried_pool v a k).length := by
          rw [hnext]
          exact List.length_filter_lt_length_iff_exists.mpr
            ⟨u, humem, by simp⟩
        have hle : (untried_pool v (hsInsert u a) k).length ≤ N := by omega
        obtain ⟨n, hn⟩ := ih (hsInsert u a) x hle hxnext
        refine ⟨n + 1, ?_⟩
        show (get_next_ssid v (selectIter v k a (n + 1)) k).1 = some x
        rw [selectIter_shift, hstep]
        exact hn

theorem selector_exhausts (v k : List String) :
    ∀ (N : Nat) (a : List String), (untried_pool v a k).length ≤ N →
      ∃ m, untried_pool v (selectIter v k a m) k = [] := by
  intro N
  induction N with
  | zero =>
    intro a hlen
    exact ⟨0, List.length_eq_zero.mp (Nat.le_zero.mp hlen)⟩
  | succ N ih =>
    intro a hlen
    rcases hu : untried_pool v a k with _ | ⟨u, rest⟩
    · exact ⟨0, hu⟩
    · have humem : u ∈ untried_pool v a k := by
        rw [hu]; exact List.mem_cons_self _ _
      have hua : u ∉ a := (mem_untried_pool.mp humem).2
      have hstep : (get_next_ssid v a k).2 = hsInsert u a := by
        rw [get_next_ssid_fresh hu]
      have hdec : (untried_pool v (hsInsert u a) k).length <
          (untried_pool v a k).length := by
        rw [untried_pool_cons hua]
        exact List.length_filter_lt_length_iff_exists.mpr ⟨u, humem, by simp⟩
      have hle : (untried_pool v (hsInsert u a) k).length ≤ N := by omega
      obtain ⟨m, hm⟩ := ih (hsInsert u a) hle
      refine ⟨m + 1, ?_⟩
      rw [selectIter_shift, hstep]
      exact hm

theorem selector_coverage (v k a : List String) (x : String)
    (hx : x ∈ candidate_pool v k) : ∃ n, selectOut v k a n = some x := by
  obtain ⟨m, hm⟩ :=
    selector_exhausts v k (untried_pool v a k).length a le_rfl
  rcases hp : candidate_pool v k with _ | ⟨p, rest⟩
  · rw [hp] at hx
    cases hx
  · by_cases hxp : x = p
    · refine ⟨m, ?_⟩
      subst hxp
      show (get_next_ssid v (selectIter v k a m) k).1 = some x
      rw [get_next_ssid_reseed hm hp]
    · have hnext2 : selectIter v k a (m + 1) = [p] := by
        show (get_next_ssid v (selectIter v k a m) k).2 = [p]
        rw [get_next_ssid_reseed hm hp]
      have hx2 : x ∈ untried_pool v [p] k := by
        rw [mem_untried_pool]
        exact ⟨mem_candidate_pool.mp hx, by simp [hxp]⟩
      obtain ⟨n, hn⟩ :=
        cover_fresh v k (untried_pool v [p] k).length [p] x le_rfl hx2
      refine ⟨(m + 1) + n, ?_⟩
      show (get_next_ssid v (selectIter v k a ((m + 1) + n)) k).1 = some x
      rw [selectIter_add, hnext2]
      exact hn

/-- C1: the candidate selector returns nothing exactly when no known SSID is
    visible; otherwise it returns a visible-and-known SSID and records it in
    the attempted set; when an untried candidate exists the pick is untried,
    and when none does the attempted set is first cleared (so the new
    attempted set is exactly the pick); consequently, for a fixed visible and
    known configuration, repeated invocation eventually returns every
    visible-and-known SSID. -/
theorem C1_selector_correct (v a k : List String) :
    ((get_next_ssid v a k).1 = none ↔ ∀ s, s ∈ k → s ∉ v) ∧
    (∀ s, (get_next_ssid v a k).1 = some s →
      s ∈ v ∧ s ∈ k ∧ s ∈ (get_next_ssid v a k).2) ∧
    (untried_pool v a k ≠ [] →
      ∀ s, (get_next_ssid v a k).1 = some s → s ∉ a) ∧
    (untried_pool v a k = [] →
      ∀ s, (get_next_ssid v a k).1 = some s →
        (get_next_ssid v a k).2 = [s]) ∧
    (∀ x, x ∈ k → x ∈ v → ∃ n, selectOut v k a n = some x) := by
  refine ⟨⟨?_, ?_⟩, ?_, ?_, ?_, ?_⟩
  · intro hnone s hsk hsv
    rcases hu : untried_pool v a k with _ | ⟨u, rest⟩
    · rcases hp : candidate_pool v k with _ | ⟨p, rest2⟩
      · have hmem : s ∈ candidate_pool v k := mem_candidate_pool.mpr ⟨hsk, hsv⟩
        rw [hp] at hmem
        cases hmem
      · rw [get_next_ssid_reseed hu hp] at hnone
        cases hnone
    · rw [get_next_ssid_fresh hu] at hnone
      cases hnone
  · intro hall
    have hp : candidate_pool v k = [] := by
      apply List.filter_eq_nil_iff.mpr
      intro c hc
      simp only [contains_true_iff]
      exact hall c hc
    have hu : untried_pool v a k = [] := by
      unfold untried_pool
      rw [hp]
      rfl
    rw [get_next_ssid_none hu hp]
  · intro s hs
    rcases hu : untried_pool v a k with _ | ⟨u, rest⟩
    · rcases hp : candidate_pool v k with _ | ⟨p, rest2⟩
      · rw [get_next_ssid_none hu hp] at hs
        cases hs
      · rw [get_next_ssid_reseed hu hp] at hs
        obtain rfl : p = s := by cases hs; rfl
        have hmem := mem_candidate_pool.mp (hp ▸ List.mem_cons_self p rest2)
        refine ⟨hmem.2, hmem.1, ?_⟩
        rw [get_next_ssid_reseed hu hp]
        exact List.mem_singleton.mpr rfl
    · rw [get_next_ssid_fresh hu] at hs
      obtain rfl : u = s := by cases hs; rfl
      have humem : u ∈ untried_pool v a k := by
        rw [hu]; exact List.mem_cons_self _ _
      have hmem := mem_untried_pool.mp humem
      refine ⟨hmem.1.2, hmem.1.1, ?_⟩
      rw [get_next_ssid_fresh hu]
      exact mem_hsInsert.mpr (Or.inl rfl)
  · intro hne s hs
    rcases hu : untried_pool v a k with _ | ⟨u, rest⟩
    · exact absurd hu hne
    · rw [get_next_ssid_fresh hu] at hs
      obtain rfl : u = s := by cases hs; rfl
      have humem : u ∈ untried_pool v a k := by
        rw [hu]; exact List.mem_cons_self _ _
      exact (mem_untried_pool.mp humem).2
  · intro hu s hs
    rcases hp : candidate_pool v k with _ | ⟨p, rest2⟩
    · rw [get_next_ssid_none hu hp] at hs
      cases hs
    · rw [get_next_ssid_reseed hu hp] at hs
      obtain rfl : p = s := by cases hs; rfl
      rw [get_next_ssid_reseed hu hp]
  · intro x hxk hxv
    exact selector_coverage v k a x (mem_candidate_pool.mpr ⟨hxk, hxv⟩)

/-- Witness for C1 at a concrete input: starting from an attempted set
    containing a stale entry, repeated selection over visible set
    {"a","b"} and known set {"b","a"} eventually returns "a". -/
theorem C1_selector_correct_witness :
    ∃ n, selectOut ["a", "b"] ["b", "a"] ["z"] n = some "a" :=
  (C1_selector_correct ["a", "b"] ["z"] ["b", "a"]).2.2.2.2 "a"
    (by decide) (by decide)

/-- C2: dispatching a Connect interrupt (mask bit 0) leaves the machine in
    the state determined solely by the decoded ConnectResult: Success stops
    scanning (setting ScanState to Idle, resetting the activity interval to
    zero) and enters WaitDhcp; NoMatchingAp enters InvalidAp; Timeout and
    Aborted enter Retry; Reject and AuthFail enter InvalidAuth; Error and
    Pending both enter Error; nothing else in the state changes and only
    Success issues a command (scan off). -/
theorem C2_connect_result_transition (st : CmState) (raw : Nat)
    (g : Nat → List (Nat × String)) (wls : WlanStatus) :
    handleComInt 1 raw (fun n => some (g n)) wls st =
      connectResultTransition (ConnectResult.decode_u16 raw) st ∧
    connectResultTransition .Success st =
      ({ st with scanState := .Idle, activityInterval := 0,
                 wifiState := .WaitDhcp }, [.setSsidScanning false]) ∧
    connectResultTransition .NoMatchingAp st =
      ({ st with wifiState := .InvalidAp }, []) ∧
    connectResultTransition .Timeout st =
      ({ st with wifiState := .Retry }, []) ∧
    connectResultTransition .Aborted st =
      ({ st with wifiState := .Retry }, []) ∧
    connectResultTransition .Reject st =
      ({ st with wifiState := .InvalidAuth }, []) ∧
    connectResultTransition .AuthFail st =
      ({ st with wifiState := .InvalidAuth }, []) ∧
    connectResultTransition .Error st =
      ({ st with wifiState := .Error }, []) ∧
    connectResultTransition .Pending st =
      ({ st with wifiState := .Error }, []) :=
  ⟨rfl, rfl, rfl, rfl, rfl, rfl, rfl, rfl, rfl⟩

/-- C6: the claim fails on the code: the subscriber table itself has no
    capacity check, and when the backing kernel connection table (32 entries)
    is exhausted the connect call fails and the dispatch aborts the process
    through expect, instead of failing with CapacityExceeded and leaving the
    state undisturbed. -/
theorem C6_capacity_counterexample :
    c6St.subscribers.length = 32 ∧
    (stepCm true c6St (.subscribeWifiStats none [9, 9, 9, 9])).1 = none :=
  ⟨by decide, rfl⟩

/-- C6 amended: a subscribe whose backing connect succeeds creates (or, for
    a duplicate connection id, replaces) a registry entry and disturbs
    nothing else; a subscribe whose backing connect fails — which is what
    happens at the 32-connection kernel ceiling — aborts the dispatcher via
    expect rather than returning CapacityExceeded. -/
theorem C6_capacity_amended (revOk : Bool) (st : CmState) (cid : Nat)
    (sid : List Nat) :
    stepCm revOk st (.subscribeWifiStats (some cid) sid) =
      (some { st with subscribers := insertSub cid sid st.subscribers }, []) ∧
    stepCm revOk st (.subscribeWifiStats none sid) = (none, []) :=
  ⟨rfl, rfl⟩

/- ### Effect-inventory lemmas -/

theorem broadcastTo_join_free (subs : List (Nat × List Nat))
    (s : WlanStatus) : Effect.wlanJoin ∉ broadcastTo subs s := by
  simp [broadcastTo]

theorem connectResultTransition_join_free (r : ConnectResult) (st : CmState) :
    Effect.wlanJoin ∉ (connectResultTransition r st).2 := by
  cases r <;> simp [connectResultTransition]

theorem ensureScanning_eq (st : CmState) :
    ensureScanning st =
      ({ st with scanState := .Scanning },
       if st.scanState = .Idle then [Effect.setSsidScanning true] else []) := by
  rcases hs : st.scanState with _ | _
  · simp [ensureScanning, hs]
  · have hst : { st with scanState := SsidScanState.Scanning } = st := by
      cases st
      simp_all
    simp [ensureScanning, hs, hst]

theorem comIntGo_join_free (ints raw : Nat)
    (fetch : Nat → Option (List (Nat × String))) (wls : WlanStatus) :
    ∀ (n mask calls : Nat) (st : CmState) (effs : List Effect),
      Effect.wlanJoin ∉ effs →
      Effect.wlanJoin ∉ (comIntGo ints raw fetch wls n mask calls st effs).2 := by
  intro n
  induction n with
  | zero =>
    intro mask calls st effs h
    exact h
  | succ n ih =>
    intro mask calls st effs h
    cases hd : decodeComIntSource (mask &&& ints) with
    | Connect =>
      simp only [comIntGo, hd]
      exact ih _ _ _ _ (by
        simp only [List.mem_append]
        rintro (hm | hm)
        · exact h hm
        · exact connectResultTransition_join_free _ st hm)
    | Disconnect =>
      simp only [comIntGo, hd]
      exact ih _ _ _ _ (by
        simp only [List.mem_append]
        rintro (hm | hm)
        · exact h hm
        · simp at hm)
    | WlanSsidScanUpdate =>
      rcases hf : fetch calls with _ | slist
      · simp only [comIntGo, hd, hf]
        exact ih _ _ _ _ h
      · simp only [comIntGo, hd, hf]
        exact ih _ _ _ _ h
    | WlanSsidScanFinished =>
      rcases hf : fetch calls with _ | slist
      · simp only [comIntGo, hd, hf]
        exact ih _ _ _ _ h
      · simp only [comIntGo, hd, hf]
        exact ih _ _ _ _ h
    | WlanIpConfigUpdate =>
      simp only [comIntGo, hd]
      exact ih _ _ _ _ (by
        simp only [List.mem_append]
        rintro (hm | hm)
        · exact h hm
        · exact broadcastTo_join_free _ _ hm)
    | Invalid =>
      simp only [comIntGo, hd]
      exact ih _ _ _ _ h

theorem handleResume_join_free (link : LinkState) (st : CmState) :
    Effect.wlanJoin ∉ (handleResume link st).2 := by
  cases link <;> cases hw : st.wifiState <;>
    simp [handleResume, hw, ensureScanning_eq, broadcastTo]

theorem pollTail_join_free (env : PollEnv) (st : CmState) :
    Effect.wlanJoin ∉ (pollTail env st).2 := by
  unfold pollTail
  by_cases hw : st.wifiState = .Connected
  · rcases hss : st.statsCache.ssid with _ | si
    · simp [hw, hss]
    · by_cases hr : si.rssi ≠ env.rssi.getD 255
      · simp [hw, hss, hr, broadcastTo]
      · simp [hw, hss, hr]
  · simp [hw]

theorem pollActivityPart_revoked (env : PollEnv) (st : CmState) :
    pollActivityPart false env st =
      (some { st with lastWifiState := st.wifiState }, []) := by
  simp [pollActivityPart]

theorem handlePoll_revoked_join_free (env : PollEnv) (st : CmState) :
    Effect.wlanJoin ∉ (handlePoll false env st).2 := by
  unfold handlePoll
  by_cases hact :
      st.activityInterval > st.currentInterval
  · simp only [hact, if_true, pollActivityPart_revoked]
    simpa using pollTail_join_free env _
  · simp only [hact, if_false]
    simpa using pollTail_join_free env _

theorem stepCm_revoked_join_free (st : CmState) (m : Msg) :
    Effect.wlanJoin ∉ (stepCm false st m).2 := by
  cases m with
  | poll env => exact handlePoll_revoked_join_free env st
  | comInt ints raw fetch wls =>
    show Effect.wlanJoin ∉ (handleComInt ints raw fetch wls st).2
    exact comIntGo_join_free _ _ _ _ _ _ _ _ _ (by simp)
  | suspendResume link => exact handleResume_join_free link st
  | subscribeWifiStats conn sid =>
    rcases conn with _ | cid <;> simp [stepCm]
  | unsubWifiStats sid =>
    rcases hv : st.subscribers.foldl
        (fun acc p => if p.2 = sid then some p.1 else acc) none with _ | cid
    · simp [stepCm, hv]
    · simp [stepCm, hv]
  | runMsg pumping =>
    by_cases hc : (!st.run && !pumping) = true
    · simp [stepCm, hc]
    · simp [stepCm, hc]
  | stopMsg => simp [stepCm]

theorem runTrace_revoked_join_free (msgs : List Msg) :
    ∀ st : CmState, Effect.wlanJoin ∉ (runTrace false st msgs).2 := by
  induction msgs with
  | nil =>
    intro st
    simp [runTrace]
  | cons m ms ih =>
    intro st
    unfold runTrace
    rcases hs : stepCm false st m with ⟨fst, effs⟩
    rcases fst with _ | st1
    · simpa using (hs ▸ stepCm_revoked_join_free st m :
        Effect.wlanJoin ∉ ((none : Option CmState), effs).2)
    · simp only
      rw [List.mem_append]
      rintro (hm | hm)
      · exact (hs ▸ stepCm_revoked_join_free st m :
          Effect.wlanJoin ∉ ((some st1 : Option CmState), effs).2) hm
      · exact ih st1 hm

/-- C4: if the EC firmware version packs below the minimum revision, the
    construction shows the too-old notification, seeds run_enabled as false
    leaving the machine inert, and across any subsequent sequence of
    Run/Stop/Poll/Interrupt/Suspend/Subscribe messages no wlan_join command
    is ever issued. -/
theorem C4_old_firmware_inert (maj minr rev commits minEcRev a0 : Nat)
    (msgs : List Msg)
    (h : ecRevPack maj minr rev commits < minEcRev) :
    (initCm maj minr rev commits minEcRev a0).1.run = false ∧
    Effect.showNotification ∈ (initCm maj minr rev commits minEcRev a0).2.1 ∧
    (initCm maj minr rev commits minEcRev a0).2.2 = false ∧
    Effect.wlanJoin ∉ (initCm maj minr rev commits minEcRev a0).2.1 ∧
    Effect.wlanJoin ∉
      (runTrace false (initCm maj minr rev commits minEcRev a0).1 msgs).2 := by
  have hrev : decide (ecRevPack maj minr rev commits ≥ minEcRev) = false :=
    decide_eq_false (not_le.mpr h)
  refine ⟨?_, ?_, ?_, ?_, ?_⟩
  · simp [initCm, hrev]
  · simp [initCm, hrev]
  · simp [initCm, hrev]
  · simp [initCm, hrev]
  · exact runTrace_revoked_join_free msgs _

/-- C5: the claim fails on the code: a poll that reaches candidate selection
    with a stored passphrase that is not valid UTF-8 aborts the dispatcher
    through expect (the trace below dies on its third poll), so an error does
    escape; and on a passphrase read error the candidate is skipped without
    continuing selection — with two visible known APs, only one candidate is
    recorded as attempted and no SSID is programmed on that same poll. -/
theorem C5_credential_counterexample :
    isValidUtf8 [255] = false ∧
    (runTrace true initGood c5Msgs).1 = none ∧
    (stepCm true c5bSt (.poll envReadErr)).1 ≠ none ∧
    ((stepCm true c5bSt (.poll envReadErr)).1.getD default).ssidAttempted.length
      = 1 ∧
    (stepCm true c5bSt (.poll envReadErr)).2 = [] := by
  refine ⟨rfl, by decide, by decide, by decide, by decide⟩

/-- C5 amended: on a poll that reaches candidate selection, a passphrase
    read error makes the dispatcher skip the join quietly: the state and
    wifi mode are kept, the candidate stays recorded in ssid_attempted (so a
    later poll moves on to the next candidate), and no SSID programming or
    join happens on that poll — selection is not re-run.  A failure to open
    the credential, or passphrase bytes that are not valid UTF-8, abort the
    dispatcher. -/
theorem C5_credential_amended (env : PollEnv) (ap : List String)
    (st : CmState) (ssid : String) (att : List String)
    (hsel : get_next_ssid st.ssidList st.ssidAttempted ap = (some ssid, att)) :
    (env.passOutcome ssid = .readErr →
      ∃ st1, (pollSelect env ap st).1 = some st1 ∧
        st1.wifiState = st.wifiState ∧ st1.ssidAttempted = att ∧
        Effect.wlanJoin ∉ (pollSelect env ap st).2 ∧
        (∀ s2, Effect.wlanSetSsid s2 ∉ (pollSelect env ap st).2)) ∧
    (env.passOutcome ssid = .getFail → (pollSelect env ap st).1 = none) ∧
    (∀ bs, env.passOutcome ssid = .bytes bs →
      isValidUtf8 (bs.take WF200_PASS_MAX_LEN) = false →
      (pollSelect env ap st).1 = none) := by
  by_cases hsc : st.scanState = .Scanning
  · refine ⟨?_, ?_, ?_⟩
    · intro hp
      refine ⟨{ st with scanState := .Idle, ssidAttempted := att }, ?_, rfl,
        rfl, ?_, ?_⟩ <;>
        simp [pollSelect, hsc, hsel, tryConnectCandidate, hp]
    · intro hp
      simp [pollSelect, hsc, hsel, tryConnectCandidate, hp]
    · intro bs hp hvalid
      simp [pollSelect, hsc, hsel, tryConnectCandidate, hp, hvalid]
  · refine ⟨?_, ?_, ?_⟩
    · intro hp
      refine ⟨{ st with ssidAttempted := att }, ?_, rfl, rfl, ?_, ?_⟩ <;>
        simp [pollSelect, hsc, hsel, tryConnectCandidate, hp]
    · intro hp
      simp [pollSelect, hsc, hsel, tryConnectCandidate, hp]
    · intro bs hp hvalid
      simp [pollSelect, hsc, hsel, tryConnectCandidate, hp, hvalid]

/-- Witness for C5 amended at a concrete input: with "home" and "work"
    visible and known and every read failing, the selection poll survives,
    records one attempt and issues no join. -/
theorem C5_credential_amended_witness :
    ∃ st1, (pollSelect envReadErr ["work", "home"] c5bSt).1 = some st1 ∧
      st1.wifiState = c5bSt.wifiState ∧ st1.ssidAttempted = ["work"] ∧
      Effect.wlanJoin ∉ (pollSelect envReadErr ["work", "home"] c5bSt).2 ∧
      (∀ s2, Effect.wlanSetSsid s2 ∉
        (pollSelect envReadErr ["work", "home"] c5bSt).2) :=
  ((C5_credential_amended envReadErr ["work", "home"] c5bSt "work" ["work"]
    (by decide)).1) rfl

theorem broadcastCount_append (xs ys : List Effect) :
    broadcastCount (xs ++ ys) = broadcastCount xs + broadcastCount ys := by
  simp [broadcastCount, List.filter_append]

theorem broadcastCount_broadcastTo (subs : List (Nat × List Nat))
    (s : WlanStatus) : broadcastCount (broadcastTo subs s) = subs.length := by
  induction subs with
  | nil => rfl
  | cons p ps ih =>
    simp [broadcastTo, broadcastCount, isBroadcast, List.filter] at ih ⊢
    omega

/-- C7: the claim fails on the code: after connecting and two quiet polls,
    the state is Connected with the RSSI cached at 20 and the poll oracle
    still reading 20, yet the next poll broadcasts to the subscriber — its
    activity-interval reconciliation runs while Connected and rebroadcasts
    the refreshed status unconditionally. -/
theorem C7_rssi_counterexample :
    c7Pre.wifiState = .Connected ∧
    c7Pre.statsCache.ssid = some { name := "home", rssi := 20 } ∧
    envJoin.rssi = some 20 ∧
    0 < broadcastCount (stepCm true c7Pre (.poll envJoin)).2 := by
  refine ⟨by decide, by decide, rfl, by decide⟩

/-- C7 amended: while Connected, the RSSI check itself is suppressed when
    the read RSSI equals the cache — on a poll whose activity-interval
    reconciliation does not run, an unchanged RSSI yields no effect at all —
    but a poll whose reconciliation runs while Connected broadcasts the
    refreshed status to every subscriber regardless of the RSSI. -/
theorem C7_rssi_amended (revOk : Bool) (env : PollEnv) (st : CmState)
    (hconn : st.wifiState = .Connected) :
    (st.activityInterval ≤ st.currentInterval →
      (∀ si, st.statsCache.ssid = some si → si.rssi = env.rssi.getD 255) →
      (stepCm revOk st (.poll env)).2 = []) ∧
    (∀ apv, st.currentInterval < st.activityInterval → env.isMounted = true →
      revOk = true → env.apList = some apv →
      st.subscribers.length ≤
        broadcastCount (stepCm revOk st (.poll env)).2) := by
  constructor
  · intro hle hcache
    have hact : ¬(st.activityInterval > st.currentInterval) := by omega
    rcases hss : st.statsCache.ssid with _ | si
    · simp [stepCm, handlePoll, hact, pollTail, hconn, hss]
    · have hrs := hcache si hss
      simp [stepCm, handlePoll, hact, pollTail, hconn, hss, hrs]
  · intro apv hgt hm hrev hap
    subst hrev
    obtain ⟨run0, mtd, wifi, lastw, sl, sa, wc, sc, cache, subs, ai, ci⟩ := st
    simp only at hconn hgt hap hm ⊢
    subst hconn
    have hact : ai > ci := hgt
    simp [stepCm, handlePoll, hact, pollActivityPart, hm, pollMountedPart,
      pollDispatch, hap, broadcastCount_append, broadcastCount_broadcastTo]

/-- Witness for C7 amended: the concrete post-connect state with one
    subscriber gets at least one broadcast from a reconciliation poll even
    though the RSSI is unchanged. -/
theorem C7_rssi_amended_witness :
    c7Pre.subscribers.length ≤
      broadcastCount (stepCm true c7Pre (.poll envJoin)).2 :=
  (C7_rssi_amended true envJoin c7Pre (by decide)).2 ["home"] (by decide)
    rfl rfl rfl

/-- C9: the claim fails on the code: in the concrete trace a join attempt is
    answered with AuthFail, entering InvalidAuth; no scan request was issued
    during that dispatch (scanning had been stopped before the join and is
    still off), so no scan has been requested since InvalidAuth was entered,
    and the machine sits in InvalidAuth with ScanState Idle. -/
theorem C9_scan_invariant_counterexample :
    (runTrace true initGood c9Msgs).1 ≠ none ∧
    c9Fin.wifiState = .InvalidAuth ∧
    c9Fin.scanState = .Idle ∧
    scanFlagGo true true initGood c9Msgs = some false := by
  refine ⟨by decide, by decide, by decide, by decide⟩

/-- C9 amended: a scan is guaranteed whenever Disconnected is entered — the
    Disconnect interrupt requests one outright, and the Retry and Error poll
    branches and the resume reconciler's leave/net-reset branches leave
    ScanState Scanning — and construction requests a scan while in the
    initial Unknown state; but entry into InvalidAp or InvalidAuth (Connect
    results) issues no scan request and leaves ScanState untouched, and the
    resume reconciler's snap-to-Disconnected branch likewise requests
    nothing, so the invariant as claimed fails for those entries. -/
theorem C9_scan_invariant_amended (st : CmState) (env : PollEnv)
    (ap : List String) (raw : Nat)
    (fetch : Nat → Option (List (Nat × String))) (wls : WlanStatus)
    (maj minr rev commits minEcRev a0 : Nat) :
    scanRequested (initCm maj minr rev commits minEcRev a0).2.1 = true ∧
    (initCm maj minr rev commits minEcRev a0).1.wifiState = .Unknown ∧
    handleComInt 2 raw fetch wls st =
      ({ st with ssidList := [], scanState := .Scanning,
                 wifiState := .Disconnected }, [.setSsidScanning true]) ∧
    (st.wifiState = .Retry →
      (pollDispatch env ap st).1 =
        some { st with wifiState := .Disconnected,
                       scanState := .Scanning }) ∧
    (st.wifiState = .Error →
      (pollDispatch env ap st).1 =
        some { st with wifiState := .Disconnected,
                       scanState := .Scanning }) ∧
    (st.wifiState ≠ .Connected → st.wifiState ≠ .Error →
      (handleResume .Connected st).1 =
        { st with wifiState := .Disconnected, scanState := .Scanning }) ∧
    (st.wifiState = .Connected →
      (handleResume .Disconnected st).1 =
        { st with statsCache := WlanStatus.defaultStatus,
                  wifiState := .Disconnected, scanState := .Scanning }) ∧
    (st.wifiState ≠ .Connected → st.wifiState ≠ .Error →
      (handleResume .Disconnected st).1 =
        { st with wifiState := .Disconnected }) ∧
    (connectResultTransition .NoMatchingAp st).2 = [] ∧
    (connectResultTransition .Reject st).2 = [] ∧
    (connectResultTransition .AuthFail st).2 = [] ∧
    (connectResultTransition .NoMatchingAp st).1.scanState = st.scanState ∧
    (connectResultTransition .Reject st).1.scanState = st.scanState ∧
    (connectResultTransition .AuthFail st).1.scanState = st.scanState := by
  refine ⟨?_, ?_, rfl, ?_, ?_, ?_, ?_, ?_, rfl, rfl, rfl, rfl, rfl, rfl⟩
  · by_cases hr : decide (ecRevPack maj minr rev commits ≥ minEcRev) = true
    · simp [initCm, scanRequested, hr]
    · simp only [Bool.not_eq_true] at hr
      simp [initCm, scanRequested, hr]
  · by_cases hr : decide (ecRevPack maj minr rev commits ≥ minEcRev) = true
    · simp [initCm, hr]
    · simp only [Bool.not_eq_true] at hr
      simp [initCm, hr]
  · intro hw
    simp [pollDispatch, hw, ensureScanning_eq]
  · intro hw
    simp [pollDispatch, hw, ensureScanning_eq]
  · intro h1 h2
    cases hw : st.wifiState <;> simp_all [handleResume, ensureScanning_eq]
  · intro hw
    simp [handleResume, hw, ensureScanning_eq]
  · intro h1 h2
    cases hw : st.wifiState <;> simp_all [handleResume, ensureScanning_eq]

/-- Witness for C9 amended: the Retry poll branch at a concrete state leaves
    the machine Disconnected with an active scan. -/
theorem C9_scan_invariant_amended_witness :
    (pollDispatch envJoin ["home"]
        { (default : CmState) with wifiState := .Retry }).1 =
      some { (default : CmState) with wifiState := .Disconnected,
                                      scanState := .Scanning } :=
  (C9_scan_invariant_amended
    { (default : CmState) with wifiState := .Retry } envJoin ["home"] 0
    (fun _ => none) homeStatus 0 0 0 0 0 0).2.2.2.1 rfl

/-- Witness for C4: a concrete too-old EC (version 0.0.0+0, minimum 1) with
    a trace that tries Run, a poll past the timeout, a full interrupt mask
    and Stop, still issuing no join. -/
theorem C4_old_firmware_inert_witness :
    ecRevPack 0 0 0 0 < 1 ∧
    Effect.wlanJoin ∉
      (runTrace false (initCm 0 0 0 0 1 99999).1
        [.runMsg false, .poll envJoin,
         .comInt 31 0 (fun _ => some [(1, "home")]) homeStatus,
         .stopMsg]).2 :=
  ⟨by decide,
   (C4_old_firmware_inert 0 0 0 0 1 99999
      [.runMsg false, .poll envJoin,
       .comInt 31 0 (fun _ => some [(1, "home")]) homeStatus,
       .stopMsg] (by decide)).2.2.2.2⟩

theorem shift_two_pow (k : Nat) : (2 ^ k) <<< 1 = 2 ^ (k + 1) := by
  rw [Nat.shiftLeft_eq, pow_one, pow_succ]

theorem two_pow_and_eq (k ints : Nat) :
    2 ^ k &&& ints = if ints.testBit k then 2 ^ k else 0 := by
  rw [Nat.two_pow_and]
  cases h : ints.testBit k <;> simp [h]

theorem decode_two_pow_ge5 (n : Nat) :
    decodeComIntSource (2 ^ (n + 5)) = .Invalid := by
  have h32 : 32 ≤ 2 ^ (n + 5) := by
    calc (32 : Nat) = 2 ^ 5 := rfl
    _ ≤ 2 ^ (n + 5) := Nat.pow_le_pow_right (by norm_num) (by omega)
  unfold decodeComIntSource
  rw [if_neg (by omega), if_neg (by omega), if_neg (by omega),
    if_neg (by omega), if_neg (by omega)]

theorem comIntGo_scanState_const (ints raw : Nat)
    (g : Nat → List (Nat × String)) (wls : WlanStatus) :
    ∀ (n k calls : Nat) (st : CmState) (effs : List Effect),
      (∀ j, k ≤ j → j < k + n →
        ints.testBit j = true → j ≠ 0 ∧ j ≠ 1 ∧ j ≠ 3) →
      (comIntGo ints raw (fun c => some (g c)) wls n (2 ^ k) calls st
          effs).1.scanState = st.scanState := by
  intro n
  induction n with
  | zero =>
    intro k calls st effs _
    rfl
  | succ n ih =>
    intro k calls st effs hbits
    cases hb : ints.testBit k with
    | false =>
      have hd : decodeComIntSource (2 ^ k &&& ints) = .Invalid := by
        rw [two_pow_and_eq, hb]
        rfl
      simp only [comIntGo, hd, shift_two_pow]
      exact ih (k + 1) _ _ _ (fun j h1 h2 hj => hbits j (by omega) (by omega) hj)
    | true =>
      have hk0 := hbits k (le_refl k) (by omega) hb
      have hd2 : 2 ^ k &&& ints = 2 ^ k := by
        rw [two_pow_and_eq, hb, if_pos rfl]
      rcases k with _ | _ | _ | _ | _ | k5
      · exact absurd rfl hk0.1
      · exact absurd rfl hk0.2.1
      · have hd : decodeComIntSource (2 ^ 2 &&& ints) = .WlanSsidScanUpdate := by
          rw [hd2]
          rfl
        simp only [comIntGo, hd, shift_two_pow]
        exact ih 3 _ _ _ (fun j h1 h2 hj => hbits j (by omega) (by omega) hj)
      · exact absurd rfl hk0.2.2
      · have hd : decodeComIntSource (2 ^ 4 &&& ints) = .WlanIpConfigUpdate := by
          rw [hd2]
          rfl
        simp only [comIntGo, hd, shift_two_pow]
        exact ih 5 _ _ _ (fun j h1 h2 hj => hbits j (by omega) (by omega) hj)
      · have hd : decodeComIntSource (2 ^ (k5 + 5) &&& ints) = .Invalid := by
          rw [hd2]
          exact decode_two_pow_ge5 k5
        simp only [comIntGo, hd, shift_two_pow]
        exact ih (k5 + 5 + 1) _ _ _
          (fun j h1 h2 hj => hbits j (by omega) (by omega) hj)



theorem comIntGo_scanFinished (ints raw : Nat)
    (g : Nat → List (Nat × String)) (wls : WlanStatus)
    (h3 : ints.testBit 3 = true) :
    ∀ (n k calls : Nat) (st : CmState) (effs : List Effect),
      k ≤ 3 → 3 < k + n →
      (comIntGo ints raw (fun c => some (g c)) wls n (2 ^ k) calls st
          effs).1.scanState = .Idle := by
  intro n
  induction n with
  | zero =>
    intro k calls st effs hk hlt
    omega
  | succ n ih =>
    intro k calls st effs hk hlt
    by_cases hk3 : k = 3
    · subst hk3
      have hd2 : 2 ^ 3 &&& ints = 2 ^ 3 := by
        rw [two_pow_and_eq, h3, if_pos rfl]
      have hd : decodeComIntSource (2 ^ 3 &&& ints) = .WlanSsidScanFinished := by
        rw [hd2]
        rfl
      simp only [comIntGo, hd, shift_two_pow]
      rw [comIntGo_scanState_const ints raw g wls n 4 _ _ _
        (fun j h1 h2 hj => ⟨by omega, by omega, by omega⟩)]
    · have hklt : k < 3 := by omega
      cases hb : ints.testBit k with
      | false =>
        have hd : decodeComIntSource (2 ^ k &&& ints) = .Invalid := by
          rw [two_pow_and_eq, hb]
          rfl
        simp only [comIntGo, hd, shift_two_pow]
        exact ih (k + 1) _ _ _ (by omega) (by omega)
      | true =>
        have hd2 : 2 ^ k &&& ints = 2 ^ k := by
          rw [two_pow_and_eq, hb, if_pos rfl]
        rcases k with _ | _ | _ | k4
        · have hd : decodeComIntSource (2 ^ 0 &&& ints) = .Connect := by
            rw [hd2]
            rfl
          simp only [comIntGo, hd, shift_two_pow]
          exact ih 1 _ _ _ (by omega) (by omega)
        · have hd : decodeComIntSource (2 ^ 1 &&& ints) = .Disconnect := by
            rw [hd2]
            rfl
          simp only [comIntGo, hd, shift_two_pow]
          exact ih 2 _ _ _ (by omega) (by omega)
        · have hd : decodeComIntSource (2 ^ 2 &&& ints) = .WlanSsidScanUpdate := by
            rw [hd2]
            rfl
          simp only [comIntGo, hd, shift_two_pow]
          exact ih 3 _ _ _ (by omega) (by omega)
        · omega



theorem mem_foldSsids (slist : List (Nat × String)) :
    ∀ (l : List String) (s : String),
      s ∈ foldSsids slist l ↔ s ∈ l ∨ ∃ p ∈ slist, p.2 = s := by
  induction slist with
  | nil =>
    intro l s
    simp [foldSsids]
  | cons p ps ih =>
    intro l s
    have hshow : foldSsids (p :: ps) l = foldSsids ps (hsInsert p.2 l) := rfl
    rw [hshow, ih, mem_hsInsert]
    constructor
    · rintro ((rfl | hl) | ⟨q, hq, rfl⟩)
      · exact Or.inr ⟨p, List.mem_cons_self _ _, rfl⟩
      · exact Or.inl hl
      · exact Or.inr ⟨q, List.mem_cons_of_mem _ hq, rfl⟩
    · rintro (hl | ⟨q, hq, rfl⟩)
      · exact Or.inl (Or.inr hl)
      · rcases List.mem_cons.mp hq with rfl | hq2
        · exact Or.inl (Or.inl rfl)
        · exact Or.inr ⟨q, hq2, rfl⟩

/-- C8: with the SSID fetches succeeding, an interrupt carrying the
    WlanSsidScanUpdate or the WlanSsidScanFinished bit folds the fetched
    SSID names into ssid_list as a set union (stated both as an exact
    equation for the single-bit masks and as a membership characterization);
    for any mask, a set WlanSsidScanFinished bit forces ScanState to Idle,
    and a mask without Connect, Disconnect or ScanFinished bits — in
    particular one carrying only WlanSsidScanUpdate — never changes
    ScanState. -/
theorem C8_scan_coalescing (st : CmState) (ints raw : Nat)
    (g : Nat → List (Nat × String)) (wls : WlanStatus) :
    handleComInt 4 raw (fun c => some (g c)) wls st =
      ({ st with ssidList := foldSsids (g 0) st.ssidList }, []) ∧
    handleComInt 8 raw (fun c => some (g c)) wls st =
      ({ st with ssidList := foldSsids (g 0) st.ssidList,
                 scanState := .Idle }, []) ∧
    (∀ s, s ∈ (handleComInt 4 raw (fun c => some (g c)) wls st).1.ssidList ↔
      s ∈ st.ssidList ∨ ∃ p ∈ g 0, p.2 = s) ∧
    (∀ s, s ∈ (handleComInt 8 raw (fun c => some (g c)) wls st).1.ssidList ↔
      s ∈ st.ssidList ∨ ∃ p ∈ g 0, p.2 = s) ∧
    ((ints % 2 ^ 16).testBit 3 = true →
      (handleComInt ints raw (fun c => some (g c)) wls st).1.scanState
        = .Idle) ∧
    ((ints % 2 ^ 16).testBit 0 = false → (ints % 2 ^ 16).testBit 1 = false →
      (ints % 2 ^ 16).testBit 3 = false →
      (handleComInt ints raw (fun c => some (g c)) wls st).1.scanState =
        st.scanState) := by
  refine ⟨rfl, rfl, ?_, ?_, ?_, ?_⟩
  · intro s
    exact mem_foldSsids (g 0) st.ssidList s
  · intro s
    exact mem_foldSsids (g 0) st.ssidList s
  · intro hb3
    show (comIntGo (ints % 2 ^ 16) raw (fun c => some (g c)) wls
      16 1 0 st []).1.scanState = .Idle
    rw [show (1 : Nat) = 2 ^ 0 from rfl]
    exact comIntGo_scanFinished _ raw g wls hb3 16 0 0 st [] (by omega)
      (by omega)
  · intro h0 h1 h3
    show (comIntGo (ints % 2 ^ 16) raw (fun c => some (g c)) wls
      16 1 0 st []).1.scanState = st.scanState
    rw [show (1 : Nat) = 2 ^ 0 from rfl]
    refine comIntGo_scanState_const _ raw g wls 16 0 0 st [] ?_
    intro j _ _ hjb
    refine ⟨?_, ?_, ?_⟩
    · rintro rfl
      rw [h0] at hjb
      cases hjb
    · rintro rfl
      rw [h1] at hjb
      cases hjb
    · rintro rfl
      rw [h3] at hjb
      cases hjb

/-- C10: when ssid_fetch_as_list fails while a scan bit is being handled,
    the decode loop consumes the iteration without shifting the mask, so the
    same bit is retried on the remaining iterations; concretely, an
    interrupt carrying both WlanSsidScanFinished (bit 3) and
    WlanIpConfigUpdate (bit 4) with every fetch failing leaves the state
    completely untouched — ScanState stays Scanning, ssid_list is unchanged,
    and the IpConfigUpdate source is never decoded (the wifi state never
    becomes Connected and no broadcast happens). -/
theorem C10_fetch_error_stalls_decode (ints raw : Nat)
    (fetch : Nat → Option (List (Nat × String))) (wls : WlanStatus)
    (n mask calls : Nat) (st : CmState) (effs : List Effect)
    (hsrc : decodeComIntSource (mask &&& ints) = .WlanSsidScanUpdate ∨
            decodeComIntSource (mask &&& ints) = .WlanSsidScanFinished)
    (hfetch : fetch calls = none) :
    comIntGo ints raw fetch wls (n + 1) mask calls st effs =
      comIntGo ints raw fetch wls n mask (calls + 1) st effs ∧
    (24 : Nat).testBit 3 = true ∧ (24 : Nat).testBit 4 = true ∧
    handleComInt 24 raw (fun _ => none) wls c10St = (c10St, []) ∧
    c10St.scanState = .Scanning ∧ c10St.ssidList = ["x"] ∧
    c10St.wifiState = .WaitDhcp := by
  refine ⟨?_, by decide, by decide, rfl, rfl, rfl, rfl⟩
  rcases hsrc with h | h <;> simp only [comIntGo, h, hfetch]

/-- Witness for C10: a failed fetch on the ScanUpdate bit consumes the
    iteration without shifting the mask at a concrete loop state. -/
theorem C10_fetch_error_stalls_decode_witness :
    comIntGo 4 0 (fun _ => none) homeStatus 1 4 0 initGood [] =
      comIntGo 4 0 (fun _ => none) homeStatus 0 4 1 initGood [] :=
  (C10_fetch_error_stalls_decode 4 0 (fun _ => none) homeStatus 0 4 0
    initGood [] (Or.inl (by decide)) rfl).1

/-- Witness for C8: a concrete WlanSsidScanFinished interrupt with a
    successful fetch leaves ScanState Idle. -/
theorem C8_scan_coalescing_witness :
    ((8 : Nat) % 2 ^ 16).testBit 3 = true ∧
    (handleComInt 8 0 (fun c => some ((fun _ => [(50, "home")]) c))
        homeStatus initGood).1.scanState = .Idle :=
  ⟨by decide,
   (C8_scan_coalescing initGood 8 0 (fun _ => [(50, "home")])
      homeStatus).2.2.2.2.1 (by decide)⟩

theorem defaultBroadcasts_append (xs ys : List Effect) :
    defaultBroadcasts (xs ++ ys) =
      defaultBroadcasts xs + defaultBroadcasts ys := by
  simp [defaultBroadcasts, List.filter_append]

theorem nondefault_of_ssid {s : WlanStatus} (h : s.ssid ≠ none) :
    s ≠ WlanStatus.defaultStatus := by
  intro heq
  apply h
  rw [heq]
  rfl

theorem defaultBroadcasts_broadcastTo_default (subs : List (Nat × List Nat)) :
    defaultBroadcasts (broadcastTo subs WlanStatus.defaultStatus) =
      subs.length := by
  induction subs with
  | nil => rfl
  | cons p ps ih =>
    simp [broadcastTo, defaultBroadcasts, isDefaultBroadcast,
      List.filter] at ih ⊢
    omega

theorem defaultBroadcasts_broadcastTo_nondefault
    (subs : List (Nat × List Nat)) {s : WlanStatus}
    (h : s ≠ WlanStatus.defaultStatus) :
    defaultBroadcasts (broadcastTo subs s) = 0 := by
  induction subs with
  | nil => rfl
  | cons p ps ih =>
    simp [broadcastTo, defaultBroadcasts, isDefaultBroadcast, List.filter,
      h] at ih ⊢
    exact ih

theorem dB_nil : defaultBroadcasts [] = 0 := rfl

theorem dB_cons_nb (e : Effect) (xs : List Effect)
    (h : isDefaultBroadcast e = false) :
    defaultBroadcasts (e :: xs) = defaultBroadcasts xs := by
  simp [defaultBroadcasts, List.filter, h]

theorem comIntGo_dB (ints raw : Nat)
    (fetch : Nat → Option (List (Nat × String))) {wls : WlanStatus}
    (hw : wls ≠ WlanStatus.defaultStatus) :
    ∀ (n mask calls : Nat) (st : CmState) (effs : List Effect),
      defaultBroadcasts (comIntGo ints raw fetch wls n mask calls st effs).2 =
        defaultBroadcasts effs := by
  intro n
  induction n with
  | zero =>
    intro mask calls st effs
    rfl
  | succ n ih =>
    intro mask calls st effs
    cases hd : decodeComIntSource (mask &&& ints) with
    | Connect =>
      simp only [comIntGo, hd]
      rw [ih, defaultBroadcasts_append]
      have hz : defaultBroadcasts
          (connectResultTransition (ConnectResult.decode_u16 raw) st).2
            = 0 := by
        cases hr : ConnectResult.decode_u16 raw <;> rfl
      omega
    | Disconnect =>
      simp only [comIntGo, hd]
      rw [ih, defaultBroadcasts_append,
        show defaultBroadcasts [Effect.setSsidScanning true] = 0 from rfl]
      omega
    | WlanSsidScanUpdate =>
      rcases hf : fetch calls with _ | slist <;>
        simp only [comIntGo, hd, hf] <;> exact ih _ _ _ _
    | WlanSsidScanFinished =>
      rcases hf : fetch calls with _ | slist <;>
        simp only [comIntGo, hd, hf] <;> exact ih _ _ _ _
    | WlanIpConfigUpdate =>
      simp only [comIntGo, hd]
      rw [ih, defaultBroadcasts_append,
        defaultBroadcasts_broadcastTo_nondefault _ hw]
      omega
    | Invalid =>
      simp only [comIntGo, hd]
      exact ih _ _ _ _

theorem handleResume_dB (link : LinkState) (st : CmState) :
    defaultBroadcasts (handleResume link st).2 =
      if link = .Disconnected ∧ st.wifiState = .Connected then
        st.subscribers.length
      else 0 := by
  cases link <;> cases hw : st.wifiState <;>
    simp [handleResume, hw, ensureScanning_eq, defaultBroadcasts_append,
      defaultBroadcasts_broadcastTo_default, dB_nil, dB_cons_nb,
      isDefaultBroadcast, apply_ite defaultBroadcasts, ite_self]



theorem pollSelect_dB (env : PollEnv) (ap : List String) (st : CmState) :
    defaultBroadcasts (pollSelect env ap st).2 = 0 := by
  unfold pollSelect
  rcases hg : get_next_ssid st.ssidList st.ssidAttempted ap with ⟨o, att⟩
  by_cases hsc : st.scanState = .Scanning
  · rcases o with _ | ssid
    · simp [hsc, hg]
      rfl
    · rcases hp : env.passOutcome ssid with _ | _ | bs <;>
        simp [hsc, hg, tryConnectCandidate, hp] <;>
        first
          | rfl
          | (split <;> rfl)
  · rcases o with _ | ssid
    · simp [hsc, hg]
      rfl
    · rcases hp : env.passOutcome ssid with _ | _ | bs <;>
        simp [hsc, hg, tryConnectCandidate, hp] <;>
        first
          | rfl
          | (split <;> rfl)

theorem pollDispatch_dB (env : PollEnv) (ap : List String) (st : CmState)
    (hw : env.wlanStatus ≠ WlanStatus.defaultStatus) :
    defaultBroadcasts (pollDispatch env ap st).2 = 0 := by
  cases hws : st.wifiState <;>
    simp [pollDispatch, hws, pollSelect_dB, ensureScanning_eq,
      defaultBroadcasts_append, defaultBroadcasts_broadcastTo_nondefault _ hw,
      apply_ite defaultBroadcasts, apply_ite Prod.snd, ite_self, dB_nil,
      dB_cons_nb, isDefaultBroadcast]



theorem pollTail_dB (env : PollEnv) (st : CmState) :
    defaultBroadcasts (pollTail env st).2 = 0 := by
  unfold pollTail
  by_cases hw : st.wifiState = .Connected
  · rcases hss : st.statsCache.ssid with _ | si
    · simp [hw, hss, dB_nil]
    · by_cases hr : si.rssi ≠ env.rssi.getD 255
      · have hz : defaultBroadcasts (broadcastTo st.subscribers
            { ssid := some ⟨si.name, env.rssi.getD 255⟩,
              link := st.statsCache.link, ip := st.statsCache.ip }) = 0 := by
          apply defaultBroadcasts_broadcastTo_nondefault
          apply nondefault_of_ssid
          simp
        simp [hw, hss, hr, hz]
      · simp [hw, hss, hr, dB_nil]
  · simp [hw, dB_nil]

theorem pollMountedPart_dB (env : PollEnv) (st : CmState)
    (hw : env.wlanStatus ≠ WlanStatus.defaultStatus) :
    defaultBroadcasts (pollMountedPart env st).2 =
      if st.lastWifiState = .Connected ∧ st.wifiState ≠ .Connected then
        st.subscribers.length
      else 0 := by
  unfold pollMountedPart
  by_cases he : st.lastWifiState = .Connected ∧ st.wifiState ≠ .Connected
  · rcases hap : env.apList with _ | apv
    · simp [he, hap, defaultBroadcasts_append,
        defaultBroadcasts_broadcastTo_default]
    · simp [he, hap, defaultBroadcasts_append,
        defaultBroadcasts_broadcastTo_default, pollDispatch_dB, hw]
  · rcases hap : env.apList with _ | apv
    · simp [he, hap, dB_nil]
    · simp [he, hap, dB_nil, pollDispatch_dB, hw]

theorem pollActivityPart_dB (revOk : Bool) (env : PollEnv) (st : CmState)
    (hw : env.wlanStatus ≠ WlanStatus.defaultStatus) :
    defaultBroadcasts (pollActivityPart revOk env st).2 =
      if (env.isMounted && revOk) = true then
        (if st.lastWifiState = .Connected ∧ st.wifiState ≠ .Connected then
          st.subscribers.length
        else 0)
      else 0 := by
  unfold pollActivityPart
  by_cases hm : (env.isMounted && revOk) = true
  · rcases hres : (pollMountedPart env st).1 with _ | st1 <;>
      simp [hm, hres, pollMountedPart_dB env st hw]
  · simp [hm, dB_nil]

theorem handlePoll_dB (revOk : Bool) (env : PollEnv) (st : CmState)
    (hw : env.wlanStatus ≠ WlanStatus.defaultStatus) :
    defaultBroadcasts (handlePoll revOk env st).2 =
      if st.currentInterval < st.activityInterval ∧
         (env.isMounted && revOk) = true ∧
         st.lastWifiState = .Connected ∧ st.wifiState ≠ .Connected then
        st.subscribers.length
      else 0 := by
  unfold handlePoll
  dsimp only
  by_cases hact : st.activityInterval > st.currentInterval
  · rw [if_pos hact]
    rcases hres : (pollActivityPart revOk env
        { st with activityInterval :=
            (st.activityInterval + st.currentInterval) % 2 ^ 32 }).1
      with _ | st2
    · simp only [hres]
      rw [pollActivityPart_dB revOk env _ hw]
      by_cases hm : (env.isMounted && revOk) = true <;>
        by_cases he : st.lastWifiState = .Connected ∧
          st.wifiState ≠ .Connected <;>
        simp [hact, hm, he]
    · simp only [hres]
      rw [defaultBroadcasts_append, pollActivityPart_dB revOk env _ hw,
        pollTail_dB]
      by_cases hm : (env.isMounted && revOk) = true <;>
        by_cases he : st.lastWifiState = .Connected ∧
          st.wifiState ≠ .Connected <;>
        simp [hact, hm, he]
  · rw [if_neg hact]
    simp [hact, defaultBroadcasts_append, pollTail_dB, dB_nil]



theorem pollTail_preserves (env : PollEnv) (st : CmState) :
    (pollTail env st).1.wifiState = st.wifiState ∧
    (pollTail env st).1.lastWifiState = st.lastWifiState := by
  unfold pollTail
  by_cases hw : st.wifiState = .Connected
  · rcases hss : st.statsCache.ssid with _ | si
    · simp [hw, hss]
    · by_cases hr : si.rssi ≠ env.rssi.getD 255 <;> simp [hw, hss, hr]
  · simp [hw]

theorem tryConnect_wifi (po : String → PassOutcome) (ssid : String)
    (st st1 : CmState)
    (h : (tryConnectCandidate po ssid st).1 = some st1) :
    st1 = st ∨ st1.wifiState = .Connecting := by
  unfold tryConnectCandidate at h
  rcases hp : po ssid with _ | _ | bs <;> rw [hp] at h
  · cases h
  · simp only at h
    exact Or.inl (Option.some.inj h).symm
  · by_cases hv : isValidUtf8 (bs.take WF200_PASS_MAX_LEN) = true
    · simp only [hv, if_true] at h
      right
      rw [← Option.some.inj h]
    · simp only [Bool.not_eq_true] at hv
      simp only [hv] at h
      cases h

theorem pollSelect_wifi (env : PollEnv) (ap : List String) (st st1 : CmState)
    (h : (pollSelect env ap st).1 = some st1) :
    st1.wifiState = st.wifiState ∨ st1.wifiState = .Connecting := by
  unfold pollSelect at h
  by_cases hsc : st.scanState = .Scanning <;>
    simp only [hsc, if_true, if_false, reduceIte] at h <;>
    rcases hg : get_next_ssid st.ssidList st.ssidAttempted ap with ⟨o, att⟩ <;>
    rw [hg] at h <;>
    rcases o with _ | ssid
  · simp only at h
    rw [← Option.some.inj h]
    exact Or.inl rfl
  · rcases tryConnect_wifi _ _ _ _ h with rfl | hcon
    · exact Or.inl rfl
    · exact Or.inr hcon
  · simp only at h
    rw [← Option.some.inj h]
    exact Or.inl rfl
  · rcases tryConnect_wifi _ _ _ _ h with rfl | hcon
    · exact Or.inl rfl
    · exact Or.inr hcon



theorem pollDispatch_not_conn (env : PollEnv) (ap : List String)
    (st st1 : CmState) (hnc : st.wifiState ≠ .Connected)
    (h : (pollDispatch env ap st).1 = some st1) :
    st1.wifiState ≠ .Connected := by
  cases hws : st.wifiState with
  | Connected => exact absurd hws hnc
  | Unknown | Disconnected | InvalidAp | InvalidAuth =>
    simp only [pollDispatch, hws] at h
    rcases pollSelect_wifi env ap st st1 h with heq | heq <;>
      rw [heq] <;> simp [hws]
  | WaitDhcp | Connecting =>
    simp only [pollDispatch, hws] at h
    by_cases hwc : st.waitCount + 1 > INTERVALS_BEFORE_RETRY <;>
      simp only [hwc, if_true, if_false, reduceIte] at h <;>
      rw [← Option.some.inj h] <;> simp
  | Retry | Error =>
    simp only [pollDispatch, hws, ensureScanning_eq] at h
    rw [← Option.some.inj h]
    simp

theorem pollMountedPart_not_conn (env : PollEnv) (st st1 : CmState)
    (hnc : st.wifiState ≠ .Connected)
    (h : (pollMountedPart env st).1 = some st1) :
    st1.wifiState ≠ .Connected := by
  unfold pollMountedPart at h
  dsimp only at h
  by_cases he : st.lastWifiState = .Connected ∧ ¬st.wifiState = .Connected
  · rw [if_pos he] at h
    rcases hap : env.apList with _ | apv <;> rw [hap] at h <;> dsimp only at h
    · rw [← Option.some.inj h]
      exact hnc
    · exact pollDispatch_not_conn env _
        { st with mounted := true, statsCache := WlanStatus.defaultStatus }
        st1 hnc h
  · rw [if_neg he] at h
    rcases hap : env.apList with _ | apv <;> rw [hap] at h <;> dsimp only at h
    · rw [← Option.some.inj h]
      exact hnc
    · exact pollDispatch_not_conn env _ { st with mounted := true } st1 hnc h

theorem handleResume_last (link : LinkState) (st : CmState) :
    (handleResume link st).1.lastWifiState = st.lastWifiState := by
  cases link <;> cases hw : st.wifiState <;>
    simp [handleResume, hw, ensureScanning_eq]



/-- C3 amended: assuming the EC reports non-default statuses for active
    associations, a dispatch broadcasts the default snapshot (once per
    subscriber) exactly when the poll edge check fires (activity timeout,
    store mounted, firmware ok, previously observed state Connected, current
    state not) or the resume reconciler sees a disconnected EC report while
    Connected; a default-broadcasting poll leaves the previously observed
    state non-Connected (so consecutive polls never double-broadcast one
    transition), but resume never updates the previously observed state, so
    a transition made by resume can be broadcast a second time by the next
    qualifying poll. -/
theorem C3_edge_broadcast_amended (revOk : Bool) (st : CmState) (m : Msg)
    (hnd : msgStatusNonDefault m) :
    (defaultBroadcasts (stepCm revOk st m).2 =
      if (pollEdgeCond revOk st m || resumeDropCond st m) = true then
        st.subscribers.length
      else 0) ∧
    (∀ env, m = .poll env → ∀ st1, (stepCm revOk st m).1 = some st1 →
      pollEdgeCond revOk st m = true → st1.lastWifiState ≠ .Connected) ∧
    (∀ link, m = .suspendResume link → ∀ st1,
      (stepCm revOk st m).1 = some st1 →
      st1.lastWifiState = st.lastWifiState) := by
  refine ⟨?_, ?_, ?_⟩
  · cases m with
    | poll env =>
      have hw : env.wlanStatus ≠ WlanStatus.defaultStatus :=
        nondefault_of_ssid hnd
      show defaultBroadcasts (handlePoll revOk env st).2 = _
      rw [handlePoll_dB revOk env st hw]
      by_cases h1 : st.currentInterval < st.activityInterval <;>
        by_cases h2 : env.isMounted = true <;>
        by_cases h3 : revOk = true <;>
        by_cases h4 : st.lastWifiState = .Connected <;>
        by_cases h5 : st.wifiState = .Connected <;>
        simp [pollEdgeCond, resumeDropCond, h1, h2, h3, h4, h5]
    | comInt ints raw fetch wls =>
      have hw : wls ≠ WlanStatus.defaultStatus := nondefault_of_ssid hnd
      show defaultBroadcasts
        (comIntGo (ints % 2 ^ 16) raw fetch wls 16 1 0 st []).2 = _
      rw [comIntGo_dB _ _ _ hw]
      simp [pollEdgeCond, resumeDropCond, dB_nil]
    | suspendResume link =>
      show defaultBroadcasts (handleResume link st).2 = _
      rw [handleResume_dB]
      cases link <;> by_cases hc : st.wifiState = .Connected <;>
        simp [pollEdgeCond, resumeDropCond, hc]
    | subscribeWifiStats conn sid =>
      rcases conn with _ | cid <;>
        simp [stepCm, pollEdgeCond, resumeDropCond, dB_nil]
    | unsubWifiStats sid =>
      rcases hv : st.subscribers.foldl
          (fun acc p => if p.2 = sid then some p.1 else acc) none
        with _ | cid <;>
        simp [stepCm, hv, pollEdgeCond, resumeDropCond, dB_nil, dB_cons_nb,
          isDefaultBroadcast]
    | runMsg pumping =>
      by_cases hc : (!st.run && !pumping) = true <;>
        simp [stepCm, hc, pollEdgeCond, resumeDropCond, dB_nil, dB_cons_nb,
          isDefaultBroadcast]
    | stopMsg =>
      simp [stepCm, pollEdgeCond, resumeDropCond, dB_nil]
  · rintro env rfl st1 hres hedge
    simp only [pollEdgeCond, Bool.and_eq_true, decide_eq_true_eq,
      Bool.not_eq_true', decide_eq_false_iff_not] at hedge
    obtain ⟨⟨⟨⟨h1, h2⟩, h3⟩, h4⟩, h5⟩ := hedge
    dsimp only [stepCm] at hres
    unfold handlePoll pollActivityPart at hres
    dsimp only at hres
    rw [if_pos (h1 : st.activityInterval > st.currentInterval)] at hres
    rw [if_pos (by simp [h2, h3] : (env.isMounted && revOk) = true)] at hres
    rcases hM : (pollMountedPart env
        { st with activityInterval :=
            (st.activityInterval + st.currentInterval) % 2 ^ 32 }).1
      with _ | stM
    · rw [hM] at hres
      dsimp only at hres
      cases hres
    · rw [hM] at hres
      dsimp only at hres
      rw [← Option.some.inj hres]
      rw [(pollTail_preserves env
        { stM with lastWifiState := stM.wifiState }).2]
      dsimp only
      exact pollMountedPart_not_conn env
        { st with activityInterval :=
            (st.activityInterval + st.currentInterval) % 2 ^ 32 } stM h5 hM
  · rintro link rfl st1 hres
    dsimp only [stepCm] at hres
    rw [← Option.some.inj hres]
    exact handleResume_last link st

/-- C3: the claim fails on the code: along the concrete trace the machine
    transitions from Connected to a non-Connected state exactly once (at the
    resume), yet the default snapshot is broadcast twice to the single
    subscriber — once by the resume reconciler and once more by the next
    qualifying poll's edge check, because resume does not update the
    previously observed state. -/
theorem C3_edge_broadcast_counterexample :
    connectedDrops (traceStates true initGood c3Msgs) = 1 ∧
    defaultBroadcasts (runTrace true initGood c3Msgs).2 = 2 ∧
    (runTrace true initGood c3Msgs).1 ≠ none := by
  refine ⟨by decide, by decide, by decide⟩

/-- Witness for C3 amended: at the concrete post-connect state, the resume
    with a disconnected EC report broadcasts the default snapshot to the one
    subscriber, matching the characterization. -/
theorem C3_edge_broadcast_amended_witness :
    defaultBroadcasts (stepCm true c7Pre (.suspendResume .Disconnected)).2 =
      if (pollEdgeCond true c7Pre (.suspendResume .Disconnected) ||
          resumeDropCond c7Pre (.suspendResume .Disconnected)) = true then
        c7Pre.subscribers.length
      else 0 :=
  (C3_edge_broadcast_amended true c7Pre (.suspendResume .Disconnected)
    trivial).1

end ConnMgr
